import Mathlib

/-!
Shallow embedding of `dep_viz_stage2.py` (Alpine APKINDEX dependency
extraction): the index fetcher `download_apkindex`, the record scanner
`extract_dependencies`, and the driver `main`.

Python strings are modelled as Lean `String`s, with the Python string
methods used by the source (`strip`, `split`, `startswith`, slicing,
`rstrip("/")`) re-implemented at the character-list level so that they
can be reasoned about by induction.  Bytes are `List Nat`; the decode
step `bytes.decode("utf-8", errors="ignore")` is modelled by an explicit
UTF-8 decoder.  The gzip/tar container (library calls `tarfile.open`,
`tar.getmembers`, `tar.extractfile`) is modelled at its interface: an
archive is either `corrupt` (opening raises `tarfile.ReadError`) or a
list of members, each of which either yields bytes or is skipped
(`tar.extractfile` returned `None`).
-/

namespace DepViz

/-- Whitespace recognizer used by Python's `str.strip()` and `str.split()`
on ASCII input (space, tab, newline, carriage return, vertical tab,
form feed). -/
def pyIsSpace (c : Char) : Bool :=
  c = ' ' || c = '\t' || c = '\n' || c = '\r' || c = '\x0b' || c = '\x0c'

/-- Both-ends whitespace trim on a character list. -/
def stripChars (l : List Char) : List Char :=
  ((l.dropWhile pyIsSpace).reverse.dropWhile pyIsSpace).reverse

/-- Models Python `s.strip()`. -/
def pyStrip (s : String) : String :=
  String.mk (stripChars s.data)

/-- Models Python slicing `s[n:]`. -/
def pyDrop (s : String) (n : Nat) : String :=
  String.mk (s.data.drop n)

/-- Models Python `s.startswith(p)`. -/
def pyStartsWith (s p : String) : Bool :=
  p.data.isPrefixOf s.data

/-- Models Python `s.rstrip("/")`: remove every trailing slash. -/
def rstripSlash (s : String) : String :=
  String.mk ((s.data.reverse.dropWhile (fun c => c = '/')).reverse)

/-- Words of a character list with an accumulator holding the reversed
current word: maximal runs of non-whitespace characters, as produced by
Python's no-argument `str.split()`. -/
def wordsAux : List Char → List Char → List (List Char)
  | [], acc => if acc.isEmpty then [] else [acc.reverse]
  | c :: cs, acc =>
    if pyIsSpace c then
      if acc.isEmpty then wordsAux cs [] else acc.reverse :: wordsAux cs []
    else wordsAux cs (c :: acc)

/-- Words of a character list: maximal runs of non-whitespace characters. -/
def wordsOf (l : List Char) : List (List Char) :=
  wordsAux l []

/-- Models Python `s.split()` (split on whitespace runs, no empty tokens). -/
def pyWords (s : String) : List String :=
  (wordsOf s.data).map String.mk

/-- Prepends a character to the first chunk of a split result. -/
def consHead (c : Char) : List (List Char) → List (List Char)
  | [] => [[c]]
  | l :: ls => (c :: l) :: ls

/-- Models Python `s.split("\n")` on a character list. -/
def splitNlChars : List Char → List (List Char)
  | [] => [[]]
  | '\n' :: cs => [] :: splitNlChars cs
  | c :: cs => consHead c (splitNlChars cs)

/-- Models Python `s.split("\n\n")` on a character list: split at each
non-overlapping occurrence of two consecutive newlines, left to right. -/
def splitBlankChars : List Char → List (List Char)
  | '\n' :: '\n' :: cs => [] :: splitBlankChars cs
  | c :: cs => consHead c (splitBlankChars cs)
  | [] => [[]]

/-- Source line 46: `blocks = content.split("\n\n")`. -/
def blocksOf (content : String) : List String :=
  (splitBlankChars content.data).map String.mk

/-- Source line 48: `lines = block.strip().split("\n")`. -/
def linesOf (block : String) : List String :=
  (splitNlChars (pyStrip block).data).map String.mk

/-- Checks that a byte is a UTF-8 continuation byte. -/
def utf8Cont (b : Nat) : Prop :=
  0x80 ≤ b ∧ b ≤ 0xBF

instance (b : Nat) : Decidable (utf8Cont b) := by
  unfold utf8Cont; infer_instance

/-- UTF-8 decoder over a byte list, modelling CPython's `utf-8` codec with
an error handler that emits `err` for each maximal ill-formed portion and
resumes at the following byte: `err = []` models `errors="ignore"`,
`err = [U+FFFD]` models `errors="replace"`.  Two-, three- and four-byte
sequences are validated with the standard range restrictions (no overlong
forms, no surrogates, nothing above U+10FFFF).  The `Nat` argument is
fuel making the recursion structural; every step consumes at least one
byte and one unit of fuel, so fuel equal to the byte count (as supplied
by `utf8Decode`) never runs out. -/
def utf8DecodeFuel (err : List Char) : Nat → List Nat → List Char
  | _, [] => []
  | 0, _ :: _ => []
  | fuel + 1, b :: bs =>
    if b ≤ 0x7F then Char.ofNat b :: utf8DecodeFuel err fuel bs
    else if 0xC2 ≤ b ∧ b ≤ 0xDF then
      match bs with
      | [] => err
      | b2 :: bs2 =>
        if utf8Cont b2 then
          Char.ofNat (0x40 * (b - 0xC0) + (b2 - 0x80)) ::
            utf8DecodeFuel err fuel bs2
        else err ++ utf8DecodeFuel err fuel (b2 :: bs2)
    else if 0xE0 ≤ b ∧ b ≤ 0xEF then
      match bs with
      | [] => err
      | b2 :: bs2 =>
        if utf8Cont b2 ∧ (b = 0xE0 → 0xA0 ≤ b2) ∧ (b = 0xED → b2 ≤ 0x9F) then
          match bs2 with
          | [] => err
          | b3 :: bs3 =>
            if utf8Cont b3 then
              Char.ofNat (0x1000 * (b - 0xE0) + 0x40 * (b2 - 0x80) + (b3 - 0x80)) ::
                utf8DecodeFuel err fuel bs3
            else err ++ utf8DecodeFuel err fuel (b3 :: bs3)
        else err ++ utf8DecodeFuel err fuel (b2 :: bs2)
    else if 0xF0 ≤ b ∧ b ≤ 0xF4 then
      match bs with
      | [] => err
      | b2 :: bs2 =>
        if utf8Cont b2 ∧ (b = 0xF0 → 0x90 ≤ b2) ∧ (b = 0xF4 → b2 ≤ 0x8F) then
          match bs2 with
          | [] => err
          | b3 :: bs3 =>
            if utf8Cont b3 then
              match bs3 with
              | [] => err
              | b4 :: bs4 =>
                if utf8Cont b4 then
                  Char.ofNat (0x40000 * (b - 0xF0) + 0x1000 * (b2 - 0x80) +
                    0x40 * (b3 - 0x80) + (b4 - 0x80)) ::
                    utf8DecodeFuel err fuel bs4
                else err ++ utf8DecodeFuel err fuel (b4 :: bs4)
            else err ++ utf8DecodeFuel err fuel (b3 :: bs3)
        else err ++ utf8DecodeFuel err fuel (b2 :: bs2)
    else err ++ utf8DecodeFuel err fuel bs

/-- UTF-8 decode of a byte list with error emission `err`. -/
def utf8Decode (err : List Char) (bs : List Nat) : List Char :=
  utf8DecodeFuel err bs.length bs

/-- Source line 44: `f.read().decode("utf-8", errors="ignore")` — invalid
portions are dropped. -/
def pyDecodeUtf8Ignore (bs : List Nat) : List Char :=
  utf8Decode [] bs

/-- Modelled from the spec: the decode the spec describes, in which every
invalid byte sequence is replaced by U+FFFD (`errors="replace"`); the
source instead uses `errors="ignore"`.  Kept for comparison with
`pyDecodeUtf8Ignore`. -/
def specDecodeUtf8Replace (bs : List Nat) : List Char :=
  utf8Decode [Char.ofNat 0xFFFD] bs

/-- UTF-8 bytes of an ASCII string (used to build concrete archive members). -/
def asciiBytes (s : String) : List Nat :=
  s.data.map Char.toNat

/-- Result of opening the fetched bytes with `tarfile.open(path, "r:gz")`:
either the open raises `tarfile.ReadError` (bytes are not a valid
gzip-compressed tar container), or it yields the members, where each
member's `tar.extractfile` result is `none` (skipped by the
`if not f: continue` guard) or the member's raw bytes. -/
inductive Archive
  | corrupt
  | entries (members : List (Option (List Nat)))
deriving DecidableEq

/-- Error raised out of `extract_dependencies` (the `tarfile.ReadError`
escaping from `tarfile.open` on a malformed archive). -/
inductive ParseError
  | corruptArchive
deriving DecidableEq

/-- Loop body of source lines 51-56: a `P:` line overwrites the block's
package name with the trimmed remainder, an (elif) `D:` line overwrites
the dependency list with the whitespace-split trimmed remainder, any
other line leaves the state unchanged. -/
def scanLine (st : Option String × List String) (line : String) :
    Option String × List String :=
  if pyStartsWith line "P:" then (some (pyStrip (pyDrop line 2)), st.2)
  else if pyStartsWith line "D:" then (st.1, pyWords (pyStrip (pyDrop line 2)))
  else st

/-- Scans the lines of one block, starting from `pkg_name = None`,
`depends = []` (source lines 49-56). -/
def scanLines (ls : List String) : Option String × List String :=
  ls.foldl scanLine (none, [])

/-- Parses one block: name and dependency list after scanning every line
(source lines 48-56). -/
def parseBlock (block : String) : Option String × List String :=
  scanLines (linesOf block)

/-- Inner loop of source lines 47-58: first block whose parsed name equals
`package_name` wins; `some deps` models the early `return dependencies`,
`none` models falling through to the next entry. -/
def findInBlocks (package_name : String) : List String → Option (List String)
  | [] => none
  | b :: bs =>
    if (parseBlock b).1 = some package_name then some (parseBlock b).2
    else findInBlocks package_name bs

/-- Outer loop of source lines 39-58 over the archive members already
decoded to text: entries are scanned in order, and the first matching
block of the first matching entry wins. -/
def findInEntries (package_name : String) : List String → Option (List String)
  | [] => none
  | e :: es =>
    match findInBlocks package_name (blocksOf e) with
    | some deps => some deps
    | none => findInEntries package_name es

/-- Source lines 39-44: iterate `tar.getmembers()`, skip members whose
`extractfile` is `None`, decode the rest leniently. -/
def readEntries (members : List (Option (List Nat))) : List String :=
  members.filterMap (fun m => m.map (fun bs => String.mk (pyDecodeUtf8Ignore bs)))

/-- Source lines 33-59, `extract_dependencies(apkindex_path, package_name)`:
opening a malformed archive raises (modelled as `Except.error`); otherwise
the scan result is returned, with the not-found fall-through returning the
initial empty `dependencies` list (source lines 37 and 59). -/
def extract_dependencies (a : Archive) (package_name : String) :
    Except ParseError (List String) :=
  match a with
  | Archive.corrupt => Except.error ParseError.corruptArchive
  | Archive.entries ms =>
    Except.ok ((findInEntries package_name (readEntries ms)).getD [])

/-- Source line 22: `index_url = repo_url.rstrip("/") + "/APKINDEX.tar.gz"`. -/
def index_url (repo_url : String) : String :=
  rstripSlash repo_url ++ "/APKINDEX.tar.gz"

/-- Outcome of one `urllib.request.urlretrieve(url, tmp_path)` call:
either the bytes at `url` were written to the temporary file (an
`Archive` once opened), or the call raised an exception whose message is
`msg` (connection failure, missing local `file://` target, unknown url
type, ...). -/
inductive RetrieveOutcome
  | success (a : Archive)
  | failure (msg : String)

/-- Source lines 18-31, `download_apkindex(repo_url)`.  The environment is
a function giving the outcome of the n-th retrieval of a given URL; the
source performs exactly one retrieval, of `index_url repo_url`.  Returns
the function's result (`Except.error` models the raised `RuntimeError`
with its message) paired with whether the `tempfile.mkstemp` temporary
file still exists when the call ends: on success it does (the caller owns
it), on failure `os.remove(tmp_path)` ran before the raise. -/
def download_apkindex (repo_url : String)
    (retrieve : Nat → String → RetrieveOutcome) :
    Except String Archive × Bool :=
  match retrieve 0 (index_url repo_url) with
  | RetrieveOutcome.success a => (Except.ok a, true)
  | RetrieveOutcome.failure msg =>
    (Except.error ("Ошибка скачивания APKINDEX: " ++ msg), false)

/-- What `main` prints after the fetch/parse: the dependency list, the
single combined message `"Пакет '...' не найден или зависимостей нет."`
(used both when the package is absent and when its dependency list is
empty), or an error message on stderr. -/
inductive MainMsg
  | depsList (deps : List String)
  | notFoundOrEmpty
  | errorMsg
deriving DecidableEq

/-- Source lines 61-76, `main`: fetch, parse, remove the temporary file,
print.  Result is (exit code, whether the temporary file still exists
when `main` returns, what was printed).  The `os.remove(apkindex_file)`
call on line 66 runs only when `extract_dependencies` returns normally;
when parsing raises, control jumps to the `except` handler and the
temporary file is left behind. -/
def main (repo_url package : String)
    (retrieve : Nat → String → RetrieveOutcome) : Int × Bool × MainMsg :=
  match download_apkindex repo_url retrieve with
  | (Except.error _, tmpLeft) => (1, tmpLeft, MainMsg.errorMsg)
  | (Except.ok a, _) =>
    match extract_dependencies a package with
    | Except.error _ => (1, true, MainMsg.errorMsg)
    | Except.ok deps =>
      (0, false, if deps.isEmpty then MainMsg.notFoundOrEmpty
        else MainMsg.depsList deps)

/-- Blocks of all entries, in entry order then block order. -/
def allBlocks (es : List String) : List String :=
  es.foldr (fun e acc => blocksOf e ++ acc) []

end DepViz

namespace DepViz

example : pyWords (pyStrip (pyDrop "D: a b  c " 2)) = ["a", "b", "c"] := by decide

example : parseBlock "P:bash\nD: libc musl" = (some "bash", ["libc", "musl"]) := by
  decide

example : findInEntries "bash" ["P: bash\nD: libc musl\n\nP: musl"] =
    some ["libc", "musl"] := by decide

example : findInEntries "musl" ["P: bash\nD: libc musl\n\nP: musl"] = some [] := by
  decide

example : findInEntries "zzz" ["P: bash\nD: libc musl\n\nP: musl"] = none := by
  decide

example : pyDecodeUtf8Ignore (asciiBytes "P:a\nD: x") = "P:a\nD: x".data := by
  decide

/-- Helper: a line that does not start with `P:` leaves the scanned name
unchanged. -/
theorem scanLine_fst_noP (st : Option String × List String) (l : String)
    (h : pyStartsWith l "P:" = false) : (scanLine st l).1 = st.1 := by
  unfold scanLine
  rw [h]
  by_cases hd : pyStartsWith l "D:" <;> simp [hd]

/-- Helper: a line that does not start with `D:` leaves the scanned
dependency list unchanged. -/
theorem scanLine_snd_noD (st : Option String × List String) (l : String)
    (h : pyStartsWith l "D:" = false) : (scanLine st l).2 = st.2 := by
  unfold scanLine
  by_cases hp : pyStartsWith l "P:" <;> simp [hp, h]

/-- Helper: effect of a `P:` line on the scan state. -/
theorem scanLine_P (st : Option String × List String) (l : String)
    (h : pyStartsWith l "P:" = true) :
    scanLine st l = (some (pyStrip (pyDrop l 2)), st.2) := by
  unfold scanLine
  rw [h]
  simp

/-- Helper: effect of a `D:` line (that is not a `P:` line) on the scan
state. -/
theorem scanLine_D (st : Option String × List String) (l : String)
    (hp : pyStartsWith l "P:" = false) (hd : pyStartsWith l "D:" = true) :
    scanLine st l = (st.1, pyWords (pyStrip (pyDrop l 2))) := by
  unfold scanLine
  rw [hp, hd]
  simp

/-- Helper: folding over lines none of which starts with `P:` preserves
the name component. -/
theorem foldl_scanLine_fst_noP (ls : List String)
    (st : Option String × List String)
    (h : ∀ l ∈ ls, pyStartsWith l "P:" = false) :
    (ls.foldl scanLine st).1 = st.1 := by
  induction ls generalizing st with
  | nil => rfl
  | cons l ls ih =>
    rw [List.foldl_cons, ih _ (fun x hx => h x (List.mem_cons_of_mem l hx))]
    exact scanLine_fst_noP st l (h l (List.mem_cons_self l ls))

/-- Helper: folding over lines none of which starts with `D:` preserves
the dependency component. -/
theorem foldl_scanLine_snd_noD (ls : List String)
    (st : Option String × List String)
    (h : ∀ l ∈ ls, pyStartsWith l "D:" = false) :
    (ls.foldl scanLine st).2 = st.2 := by
  induction ls generalizing st with
  | nil => rfl
  | cons l ls ih =>
    rw [List.foldl_cons, ih _ (fun x hx => h x (List.mem_cons_of_mem l hx))]
    exact scanLine_snd_noD st l (h l (List.mem_cons_self l ls))

/-- Helper: the block scan on a matching head block returns its
dependency list at once. -/
theorem findInBlocks_cons_match (t b : String) (bs : List String)
    (h : (parseBlock b).1 = some t) :
    findInBlocks t (b :: bs) = some (parseBlock b).2 := by
  simp [findInBlocks, h]

/-- Helper: the block scan skips a non-matching head block. -/
theorem findInBlocks_cons_nomatch (t b : String) (bs : List String)
    (h : (parseBlock b).1 ≠ some t) :
    findInBlocks t (b :: bs) = findInBlocks t bs := by
  simp [findInBlocks, h]

/-- Helper: a list with no matching block scans to `none`. -/
theorem findInBlocks_eq_none_of_nomatch (t : String) (bs : List String)
    (h : ∀ b ∈ bs, (parseBlock b).1 ≠ some t) :
    findInBlocks t bs = none := by
  induction bs with
  | nil => rfl
  | cons b bs ih =>
    rw [findInBlocks_cons_nomatch t b bs (h b (List.mem_cons_self b bs))]
    exact ih (fun x hx => h x (List.mem_cons_of_mem b hx))

/-- Helper: scanning an appended block list when the front part has no
match continues in the back part. -/
theorem findInBlocks_append_none (t : String) (xs ys : List String)
    (h : findInBlocks t xs = none) :
    findInBlocks t (xs ++ ys) = findInBlocks t ys := by
  induction xs with
  | nil => rfl
  | cons x xs ih =>
    by_cases hx : (parseBlock x).1 = some t
    · rw [findInBlocks_cons_match t x xs hx] at h
      exact absurd h (by simp)
    · rw [findInBlocks_cons_nomatch t x xs hx] at h
      rw [List.cons_append, findInBlocks_cons_nomatch t x (xs ++ ys) hx]
      exact ih h

/-- Helper: scanning an appended block list stops at a match in the front
part. -/
theorem findInBlocks_append_some (t : String) (xs ys : List String)
    (d : List String) (h : findInBlocks t xs = some d) :
    findInBlocks t (xs ++ ys) = some d := by
  induction xs with
  | nil => exact absurd h (by simp [findInBlocks])
  | cons x xs ih =>
    by_cases hx : (parseBlock x).1 = some t
    · rw [findInBlocks_cons_match t x xs hx] at h
      rw [List.cons_append, findInBlocks_cons_match t x (xs ++ ys) hx]
      exact h
    · rw [findInBlocks_cons_nomatch t x xs hx] at h
      rw [List.cons_append, findInBlocks_cons_nomatch t x (xs ++ ys) hx]
      exact ih h

/-- Helper: the nested entry/block loops are equivalent to one scan over
all blocks in entry order then block order. -/
theorem findInEntries_eq_allBlocks (t : String) (es : List String) :
    findInEntries t es = findInBlocks t (allBlocks es) := by
  induction es with
  | nil => rfl
  | cons e es ih =>
    have hall : allBlocks (e :: es) = blocksOf e ++ allBlocks es := rfl
    rw [hall]
    cases hfb : findInBlocks t (blocksOf e) with
    | some d =>
      rw [findInBlocks_append_some t _ _ d hfb]
      simp [findInEntries, hfb]
    | none =>
      rw [findInBlocks_append_none t _ _ hfb]
      simp [findInEntries, hfb, ih]

/-- Helper: the block scan returns the dependency list of the first block
(in scan order) whose parsed name equals the target. -/
theorem findInBlocks_eq_find? (t : String) (bs : List String) :
    findInBlocks t bs =
      ((bs.find? fun b => decide ((parseBlock b).1 = some t)).map
        fun b => (parseBlock b).2) := by
  induction bs with
  | nil => rfl
  | cons b bs ih =>
    by_cases h : (parseBlock b).1 = some t
    · simp [findInBlocks, h, List.find?_cons]
    · simp [findInBlocks, h, List.find?_cons, ih]

/-- Helper: dropping leading slashes leaves no slash at the front. -/
theorem head_dropWhile_slash (l : List Char) :
    ((l.dropWhile fun c => c = '/').head? = some '/') → False := by
  induction l with
  | nil => simp [List.dropWhile]
  | cons c cs ih =>
    by_cases h : c = '/'
    · simpa [List.dropWhile, h] using ih
    · simp [List.dropWhile, h]

/-- Helper: `rstrip("/")` really removes every trailing slash. -/
theorem rstripSlash_no_trailing (s : String) :
    ((rstripSlash s).data.reverse.head? = some '/') → False := by
  unfold rstripSlash
  rw [show (String.mk ((s.data.reverse.dropWhile (fun c => c = '/')).reverse)).data
      = (s.data.reverse.dropWhile (fun c => c = '/')).reverse from rfl,
    List.reverse_reverse]
  exact head_dropWhile_slash _

/-- Helper: a trailing slash on the repository URL does not change the
formed index URL. -/
theorem index_url_append_slash (s : String) :
    index_url (s ++ "/") = index_url s := by
  unfold index_url rstripSlash
  have hdata : (s ++ "/").data = s.data ++ ['/'] := String.data_append s "/"
  rw [hdata, List.reverse_append]
  simp [List.dropWhile]

/-- C1 (counterexample): querying a name absent from every block and
querying a present package that has no `D:` line return the very same
value — `extract_dependencies` yields the empty list in both cases, and
`main` prints the same combined message — so the code has no explicit
`NotFound` result distinct from a successful empty dependency list. -/
theorem c1_counterexample :
    extract_dependencies (Archive.entries [some (asciiBytes "P:a\nD: x")]) "zzz"
      = extract_dependencies (Archive.entries [some (asciiBytes "P:zzz")]) "zzz"
    ∧ extract_dependencies (Archive.entries [some (asciiBytes "P:a\nD: x")]) "zzz"
      = Except.ok []
    ∧ (main "http://repo" "zzz" (fun _ _ =>
        RetrieveOutcome.success (Archive.entries [some (asciiBytes "P:a\nD: x")]))).2.2
      = (main "http://repo" "zzz" (fun _ _ =>
        RetrieveOutcome.success (Archive.entries [some (asciiBytes "P:zzz")]))).2.2 :=
  ⟨rfl, rfl, rfl⟩

/-- C1 (amended): querying a name absent from every block is not an
error — the inner scan falls through with `none` and the function returns
`Except.ok []` — but that returned value is not distinct from a found
package with an empty dependency list. -/
theorem c1_amended (target : String) (ms : List (Option (List Nat)))
    (h : ∀ b ∈ allBlocks (readEntries ms), (parseBlock b).1 ≠ some target) :
    findInEntries target (readEntries ms) = none
    ∧ extract_dependencies (Archive.entries ms) target = Except.ok [] := by
  have h2 : findInEntries target (readEntries ms) = none := by
    rw [findInEntries_eq_allBlocks]
    exact findInBlocks_eq_none_of_nomatch _ _ h
  exact ⟨h2, by simp [extract_dependencies, h2]⟩

/-- C1 (witness): the amendment applied to a concrete archive and query. -/
theorem c1_amended_witness :
    findInEntries "zzz" (readEntries [some (asciiBytes "P:a\nD: x")]) = none
    ∧ extract_dependencies (Archive.entries [some (asciiBytes "P:a\nD: x")]) "zzz"
      = Except.ok [] :=
  c1_amended "zzz" [some (asciiBytes "P:a\nD: x")] (by decide)

/-- C2 (code bug): when the fetch succeeds but the downloaded bytes are
not a valid gzip tar container, `extract_dependencies` raises, the
`os.remove(apkindex_file)` call is skipped, and `main` returns with the
temporary file still on disk (second component `true`); the fetch-failure
and success paths do clean it up. -/
theorem c2_temp_file_leak :
    (∀ repo pkg, main repo pkg (fun _ _ => RetrieveOutcome.success Archive.corrupt)
        = (1, true, MainMsg.errorMsg))
    ∧ (∀ repo pkg, (main repo pkg (fun _ _ => RetrieveOutcome.failure "err")).2.1
        = false)
    ∧ (main "http://r" "bash" (fun _ _ =>
        RetrieveOutcome.success (Archive.entries [some (asciiBytes "P:bash\nD: a")]))).2.1
      = false :=
  ⟨fun _ _ => rfl, fun _ _ => rfl, rfl⟩

/-- C3: in an archive whose first block (in entry order then block order)
with parsed name equal to the target has a `D:` line with tokens
`a b c`, the query finds exactly `["a", "b", "c"]`, the whitespace-split
of the `D:` remainder in original left-to-right order. -/
theorem c3_d_line_tokens (target : String) (es pre post : List String)
    (blk : String)
    (hsplit : allBlocks es = pre ++ blk :: post)
    (hpre : ∀ b ∈ pre, (parseBlock b).1 ≠ some target)
    (hname : (parseBlock blk).1 = some target)
    (hdeps : (parseBlock blk).2 = ["a", "b", "c"]) :
    findInEntries target es = some ["a", "b", "c"]
    ∧ parseBlock "P:N\nD: a b c" = (some "N", ["a", "b", "c"])
    ∧ pyWords (pyStrip (pyDrop "D: a b c" 2)) = ["a", "b", "c"] := by
  refine ⟨?_, by decide, by decide⟩
  rw [findInEntries_eq_allBlocks, hsplit,
    findInBlocks_append_none target pre (blk :: post)
      (findInBlocks_eq_none_of_nomatch target pre hpre),
    findInBlocks_cons_match target blk post hname, hdeps]

/-- C3 (witness): the theorem applied to a one-entry archive whose single
block is `P:N` with `D: a b c`. -/
theorem c3_d_line_tokens_witness :
    findInEntries "N" ["P:N\nD: a b c"] = some ["a", "b", "c"]
    ∧ parseBlock "P:N\nD: a b c" = (some "N", ["a", "b", "c"])
    ∧ pyWords (pyStrip (pyDrop "D: a b c" 2)) = ["a", "b", "c"] :=
  c3_d_line_tokens "N" ["P:N\nD: a b c"] [] [] "P:N\nD: a b c"
    (by decide) (by decide) (by decide) (by decide)

/-- C4: the scan over all entries equals a first-match search over the
blocks in entry order then block order (so the result is the dependency
list of the first matching block, independent of everything after it);
with duplicate names the first block wins both inside one entry and
across entries, and the comparison is exact and case-sensitive. -/
theorem c4_first_match_wins :
    (∀ (t : String) (es : List String),
        findInEntries t es =
          (((allBlocks es).find? fun b => decide ((parseBlock b).1 = some t)).map
            fun b => (parseBlock b).2))
    ∧ findInEntries "curl" ["P:curl\nD: a", "P:curl\nD: b"] = some ["a"]
    ∧ findInEntries "curl" ["P:curl\nD: a\n\nP:curl\nD: b"] = some ["a"]
    ∧ findInEntries "curl" ["P:Curl\nD: a"] = none := by
  refine ⟨fun t es => ?_, by decide, by decide, by decide⟩
  rw [findInEntries_eq_allBlocks, findInBlocks_eq_find?]

/-- C5 (counterexample): a block with a `P:` line and no `D:` line makes
the query return `Except.ok []` — exactly the same value, and the same
printed message, as a query for an absent package, so the result is not
distinct from "not found". -/
theorem c5_counterexample :
    extract_dependencies (Archive.entries [some (asciiBytes "P:pkgX")]) "pkgX"
      = Except.ok []
    ∧ extract_dependencies (Archive.entries [some (asciiBytes "P:pkgX")]) "absent"
      = Except.ok []
    ∧ (main "http://r" "pkgX" (fun _ _ =>
        RetrieveOutcome.success (Archive.entries [some (asciiBytes "P:pkgX")]))).2.2
      = MainMsg.notFoundOrEmpty
    ∧ (main "http://r" "absent" (fun _ _ =>
        RetrieveOutcome.success (Archive.entries [some (asciiBytes "P:pkgX")]))).2.2
      = MainMsg.notFoundOrEmpty :=
  ⟨rfl, rfl, rfl, rfl⟩

/-- C5 (amended): a matched block with a `P:` line and no `D:` line is
found by the scan (internal early return `some []`, not the not-found
fall-through `none`) and yields the empty dependency list, but the value
`extract_dependencies` returns is the same empty list the not-found path
returns. -/
theorem c5_amended (target : String) (ms : List (Option (List Nat)))
    (pre post : List String) (blk : String)
    (hsplit : allBlocks (readEntries ms) = pre ++ blk :: post)
    (hpre : ∀ b ∈ pre, (parseBlock b).1 ≠ some target)
    (hname : (parseBlock blk).1 = some target)
    (hnoD : ∀ l ∈ linesOf blk, pyStartsWith l "D:" = false) :
    findInEntries target (readEntries ms) = some []
    ∧ extract_dependencies (Archive.entries ms) target = Except.ok [] := by
  have hdeps : (parseBlock blk).2 = [] :=
    foldl_scanLine_snd_noD (linesOf blk) (none, []) hnoD
  have h2 : findInEntries target (readEntries ms) = some [] := by
    rw [findInEntries_eq_allBlocks, hsplit,
      findInBlocks_append_none target pre (blk :: post)
        (findInBlocks_eq_none_of_nomatch target pre hpre),
      findInBlocks_cons_match target blk post hname, hdeps]
  exact ⟨h2, by simp [extract_dependencies, h2]⟩

/-- C5 (witness): the amendment applied to a concrete one-block archive
with a `P:` line and no `D:` line. -/
theorem c5_amended_witness :
    findInEntries "pkgY" (readEntries [some (asciiBytes "P:pkgY")]) = some []
    ∧ extract_dependencies (Archive.entries [some (asciiBytes "P:pkgY")]) "pkgY"
      = Except.ok [] :=
  c5_amended "pkgY" [some (asciiBytes "P:pkgY")] [] [] "P:pkgY"
    (by decide) (by decide) (by decide) (by decide)

/-- C6: bytes that are not a valid gzip tar container (the `corrupt`
archive at the `tarfile.open` interface) make `extract_dependencies`
raise the corrupt-archive error, never any query result, and `main`
reports an error with exit code 1 instead of a silent empty answer. -/
theorem c6_corrupt_archive :
    (∀ name, extract_dependencies Archive.corrupt name
        = Except.error ParseError.corruptArchive)
    ∧ (∀ name deps, extract_dependencies Archive.corrupt name ≠ Except.ok deps)
    ∧ (∀ repo pkg,
        (main repo pkg (fun _ _ => RetrieveOutcome.success Archive.corrupt)).1 = 1
        ∧ (main repo pkg (fun _ _ => RetrieveOutcome.success Archive.corrupt)).2.2
          = MainMsg.errorMsg) := by
  refine ⟨fun name => rfl, fun name deps h => ?_, fun repo pkg => ⟨rfl, rfl⟩⟩
  simp [extract_dependencies] at h

/-- C7 (counterexample): a missing archive at a local `file://` location
and a failed network transfer surface through the one and only failure
shape the fetcher has — the generic download `RuntimeError` wrapper — so
there is no `NotFound` (or `IoError`) result distinct from a transfer
error. -/
theorem c7_counterexample :
    (download_apkindex "file:///data/repo" (fun _ _ =>
        RetrieveOutcome.failure "urlopen error Errno 2 No such file or directory")).1
      = Except.error
          "Ошибка скачивания APKINDEX: urlopen error Errno 2 No such file or directory"
    ∧ (download_apkindex "http://host/repo" (fun _ _ =>
        RetrieveOutcome.failure "Connection refused")).1
      = Except.error "Ошибка скачивания APKINDEX: Connection refused" :=
  ⟨rfl, rfl⟩

/-- C7 (amended): when the single retrieval of the index URL fails — in
particular because the expected archive file is absent at a local
location — `download_apkindex` raises the generic download error wrapping
the underlying message, the temporary file is removed, and `main` stops
with exit code 1 without ever opening an archive, so no unrelated
decompression error is raised. -/
theorem c7_amended (base pkg msg : String)
    (r : Nat → String → RetrieveOutcome)
    (h : r 0 (index_url base) = RetrieveOutcome.failure msg) :
    download_apkindex base r
      = (Except.error ("Ошибка скачивания APKINDEX: " ++ msg), false)
    ∧ main base pkg r = (1, false, MainMsg.errorMsg) := by
  have hd : download_apkindex base r
      = (Except.error ("Ошибка скачивания APKINDEX: " ++ msg), false) := by
    unfold download_apkindex
    rw [h]
  refine ⟨hd, ?_⟩
  unfold main
  rw [hd]

/-- C7 (witness): the amendment applied to a local location whose archive
file is absent. -/
theorem c7_amended_witness :
    download_apkindex "file:///data/repo"
        (fun _ _ => RetrieveOutcome.failure "No such file or directory")
      = (Except.error "Ошибка скачивания APKINDEX: No such file or directory", false)
    ∧ main "file:///data/repo" "bash"
        (fun _ _ => RetrieveOutcome.failure "No such file or directory")
      = (1, false, MainMsg.errorMsg) :=
  c7_amended "file:///data/repo" "bash" "No such file or directory"
    (fun _ _ => RetrieveOutcome.failure "No such file or directory") rfl

/-- C8: the whole run depends only on the first retrieval of the one URL
`rstrip`-of-slashes plus `/APKINDEX.tar.gz` (so exactly that URL is
fetched and no retry is consulted after a failure); trailing slashes on
the base are normalized away and the normalized base keeps no trailing
slash before the single joining `/`. -/
theorem c8_single_retrieval (base pkg : String)
    (r r2 : Nat → String → RetrieveOutcome)
    (h : r 0 (index_url base) = r2 0 (index_url base)) :
    main base pkg r = main base pkg r2
    ∧ index_url base = rstripSlash base ++ "/APKINDEX.tar.gz"
    ∧ index_url (base ++ "/") = index_url base
    ∧ ((rstripSlash base).data.reverse.head? = some '/' → False) := by
  refine ⟨?_, rfl, index_url_append_slash base, rstripSlash_no_trailing base⟩
  unfold main download_apkindex
  rw [h]

/-- C8 (witness): the theorem applied with a retrieval trace that fails
on the first attempt and would succeed on a retry — the run is identical,
so no retry happens. -/
theorem c8_single_retrieval_witness :
    main "http://cdn/alpine/" "bash" (fun _ _ => RetrieveOutcome.failure "timeout")
      = main "http://cdn/alpine/" "bash" (fun n _ =>
          if n = 0 then RetrieveOutcome.failure "timeout"
          else RetrieveOutcome.success Archive.corrupt)
    ∧ index_url "http://cdn/alpine/"
      = rstripSlash "http://cdn/alpine/" ++ "/APKINDEX.tar.gz"
    ∧ index_url ("http://cdn/alpine/" ++ "/") = index_url "http://cdn/alpine/"
    ∧ ((rstripSlash "http://cdn/alpine/").data.reverse.head? = some '/' → False) :=
  c8_single_retrieval "http://cdn/alpine/" "bash"
    (fun _ _ => RetrieveOutcome.failure "timeout")
    (fun n _ => if n = 0 then RetrieveOutcome.failure "timeout"
      else RetrieveOutcome.success Archive.corrupt) rfl

/-- C9 (counterexample): the source decodes with `errors="ignore"`, so an
invalid byte is dropped, producing the empty text — not replaced by
U+FFFD as the claim states. -/
theorem c9_counterexample :
    pyDecodeUtf8Ignore [0xFF] = []
    ∧ specDecodeUtf8Replace [0xFF] = [Char.ofNat 0xFFFD]
    ∧ pyDecodeUtf8Ignore [0xFF] ≠ specDecodeUtf8Replace [0xFF] :=
  ⟨rfl, rfl, by decide⟩

/-- C9 (amended): decoding never fails — an invalid byte is silently
dropped (not replaced) and decoding proceeds on the remainder, and
parsing an archive of entries always returns a result, never an error,
whatever the member bytes are. -/
theorem c9_amended :
    (∀ bs : List Nat, pyDecodeUtf8Ignore (0xFF :: bs) = pyDecodeUtf8Ignore bs)
    ∧ (∀ (ms : List (Option (List Nat))) (name : String),
        ∃ deps, extract_dependencies (Archive.entries ms) name = Except.ok deps) := by
  constructor
  · intro bs
    show utf8DecodeFuel [] ((0xFF :: bs).length) (0xFF :: bs)
      = utf8DecodeFuel [] bs.length bs
    rw [List.length_cons, utf8DecodeFuel.eq_def]
    norm_num
  · intro ms name
    exact ⟨_, rfl⟩

/-- C10: within one block the last `P:` line and the last `D:` line win
(each overwrites the scanned value), and the match test runs only after
the whole block is scanned, so a `D:` line written before the `P:` line
still supplies the dependency list of the matched record. -/
theorem c10_last_tag_wins :
    (∀ (ls1 ls2 : List String) (pl : String),
        pyStartsWith pl "P:" = true →
        (∀ l ∈ ls2, pyStartsWith l "P:" = false) →
        (scanLines (ls1 ++ pl :: ls2)).1 = some (pyStrip (pyDrop pl 2)))
    ∧ (∀ (ls1 ls2 : List String) (dl : String),
        pyStartsWith dl "P:" = false →
        pyStartsWith dl "D:" = true →
        (∀ l ∈ ls2, pyStartsWith l "D:" = false) →
        (scanLines (ls1 ++ dl :: ls2)).2 = pyWords (pyStrip (pyDrop dl 2)))
    ∧ findInEntries "x" ["D: a b\nP: x"] = some ["a", "b"]
    ∧ parseBlock "P:old\nP:new\nD: d1\nD: d2 d3" = (some "new", ["d2", "d3"]) := by
  refine ⟨fun ls1 ls2 pl hp hls2 => ?_, fun ls1 ls2 dl hp hd hls2 => ?_,
    by decide, by decide⟩
  · unfold scanLines
    rw [List.foldl_append, List.foldl_cons,
      scanLine_P (List.foldl scanLine (none, []) ls1) pl hp]
    exact foldl_scanLine_fst_noP ls2 _ hls2
  · unfold scanLines
    rw [List.foldl_append, List.foldl_cons,
      scanLine_D (List.foldl scanLine (none, []) ls1) dl hp hd]
    exact foldl_scanLine_snd_noD ls2 _ hls2

/-- C10 (witness): the theorem applied to a block whose second `P:` line
overwrites the first. -/
theorem c10_last_tag_wins_witness :
    (scanLines (["P:old"] ++ "P:new" :: ["D: z"])).1
      = some (pyStrip (pyDrop "P:new" 2)) :=
  c10_last_tag_wins.1 ["P:old"] ["D: z"] "P:new" (by decide) (by decide)

end DepViz
